import Mathlib

/-!
Shallow embedding of the netcat QUIC client (src/main.rs) together with proofs
of the specification claims about it.  Each Rust function written in futures
0.1 combinator style is modelled as a Lean function from the outcomes of its
external asynchronous effects (DNS lookup, endpoint bind, connect initiation,
handshake, stream opening, byte reads and writes) to the value the composed
future resolves with.  The two copy directions of the relay additionally carry
a resolution-time index, so that the join semantics of
Future.join and its behaviour on the error path are statable.
-/

namespace Netcat

/-- IP addresses are kept abstract as strings, e.g. "192.0.2.1". -/
abbrev IpAddr := String

/-- Models std::net::SocketAddr as built by the expression
`(ip, self.port).into()` inside Options::get_address (main.rs line 111). -/
structure SocketAddr where
  ip : IpAddr
  port : Nat
  deriving DecidableEq

/-- Models the QuicOptions struct (main.rs lines 21-27): the optional
`--dns-name` override used to validate TLS connections to the remote. -/
structure QuicOptions where
  dns_name : Option String
  deriving DecidableEq

/-- Models the Protocol enum (main.rs lines 14-19); it has exactly the one
variant Quic. -/
inductive Protocol where
  | quic (opts : QuicOptions)
  deriving DecidableEq

/-- Models the Options struct (main.rs lines 68-78).  The verbosity field is
omitted: it only configures the logging sink. -/
structure Options where
  hostname : String
  port : Nat
  protocol : Protocol
  deriving DecidableEq

/-- Log levels of the log crate macros used in main.rs (error!, info!,
debug!). -/
inductive LogLevel where
  | error
  | info
  | debug
  deriving DecidableEq

/-- A single diagnostic event emitted through the log crate. -/
structure LogEvent where
  level : LogLevel
  message : String
  deriving DecidableEq

/-- A future that resolves at time `time` with `result`.  The time index
models the number of scheduler steps until the underlying I/O completes; it
lets us state when a composed future resolves relative to its parts. -/
structure TFuture (ε α : Type) where
  time : Nat
  result : Except ε α

/-- Models futures 0.1 Future::join (as used at main.rs line 129): polls both
sides; when both succeed it resolves with the pair once the later side has
finished; as soon as either side fails, it resolves with that error without
waiting for the other side (on a tie of failure times the first argument wins,
since Join polls its first component first). -/
def TFuture.join {ε α β : Type} (fa : TFuture ε α) (fb : TFuture ε β) :
    TFuture ε (α × β) :=
  match fa.result, fb.result with
  | .ok a, .ok b => ⟨Nat.max fa.time fb.time, .ok (a, b)⟩
  | .error e, .ok _ => ⟨fa.time, .error e⟩
  | .ok _, .error e => ⟨fb.time, .error e⟩
  | .error ea, .error eb =>
      if fa.time ≤ fb.time then ⟨fa.time, .error ea⟩ else ⟨fb.time, .error eb⟩

/-- The observable read behaviour of an input handle (stdin, or the receive
half of the stream): the successful reads, in order, followed by either clean
end-of-input (`terminal = none`) or an I/O error (`terminal = some e`). -/
structure ByteSource where
  chunks : List (List Nat)
  terminal : Option String

/-- The observable write behaviour of an output handle (the transmit half of
the stream, or stdout): when `wErr = some e`, any write pushing the cumulative
byte count past `accept` fails with e; when `wErr = none`, all writes
succeed. -/
structure ByteSink where
  accept : Nat
  wErr : Option String

/-- Total number of bytes a source yields before its terminal event. -/
def ByteSource.total (s : ByteSource) : Nat :=
  (s.chunks.map List.length).sum

/-- Copy loop of tokio io::copy: read a chunk, write it, repeat, accumulating
the byte count; stops with the count on clean end-of-input and with the first
read or write error otherwise. -/
def copyChunks (terminal : Option String) (sink : ByteSink) :
    List (List Nat) → Nat → Except String Nat
  | [], acc =>
      match terminal with
      | none => .ok acc
      | some e => .error e
  | c :: rest, acc =>
      match sink.wErr with
      | some e =>
          if sink.accept < acc + c.length then .error e
          else copyChunks terminal sink rest (acc + c.length)
      | none => copyChunks terminal sink rest (acc + c.length)

/-- Models tokio io::copy (used twice at main.rs line 129): resolves with the
number of bytes copied from the source into the sink on clean end-of-input,
and with the first I/O error of either side otherwise.  The Rust value also
carries back the reader and writer; those components are discarded by
run_stream_connection, so they are not modelled. -/
def ioCopy (src : ByteSource) (sink : ByteSink) : Except String Nat :=
  copyChunks src.terminal sink src.chunks 0

/-- The byte-count summary the relay reports on success.  In the Rust code the
future's item type is () and the summary exists as the info!-logged pair
(sent, received) at main.rs lines 131-136; we model the reported summary as
the success value. -/
structure RelaySummary where
  bytesTransmitted : Nat
  bytesReceived : Nat
  deriving DecidableEq

/-- Models run_stream_connection (main.rs lines 122-137): joins the
stdin-to-transmit copy with the receive-to-stdout copy, and on success reports
the (sent, received) byte counts.  The copy directions are given by the
observable behaviour of the four handles plus the times tSend and tRecv at
which each direction finishes. -/
def run_stream_connection (stdinSrc : ByteSource) (sendSink : ByteSink)
    (recvSrc : ByteSource) (stdoutSink : ByteSink) (tSend tRecv : Nat) :
    TFuture String RelaySummary :=
  let sendCopy : TFuture String Nat := ⟨tSend, ioCopy stdinSrc sendSink⟩
  let recvCopy : TFuture String Nat := ⟨tRecv, ioCopy recvSrc stdoutSink⟩
  let mainF := TFuture.join sendCopy recvCopy
  ⟨mainF.time, Except.map (fun p => ⟨p.1, p.2⟩) mainF.result⟩

/-- Models the server_name expression of QuicOptions::connect (main.rs lines
45-49): `self.dns_name.as_ref().map(String::as_str).unwrap_or(hostname)`.
The override is used verbatim whenever present; the hostname is the default
only when the override is absent. -/
def QuicOptions.server_name (q : QuicOptions) (hostname : String) : String :=
  q.dns_name.getD hostname

/-- Models QuicOptions::connect (main.rs lines 32-65).  External effects are
passed as outcome parameters: `bindRes` for Endpoint::builder().bind,
`endpointDriver` for the eventual outcome of the spawned endpoint driving
task, `connectInit` for endpoint.connect (which receives the address and the
effective server name), `handshake` for awaiting the Connecting future,
`sessionDriver` for the spawned connection driving task, and `openBi` for
connection.open_bi, which yields the pair (send, recv).  The function returns
the value the composed future resolves with, paired with the diagnostic
events emitted: driver failures are logged with error! and never affect the
result, and "Connection established" is logged with info! on success.  The
returned stream pair is inverted to (recv, send), per main.rs line 62. -/
def QuicOptions.connect {σ τ : Type} (q : QuicOptions) (address : SocketAddr)
    (hostname : String) (bindRes : Except String Unit)
    (endpointDriver : Except String Unit)
    (connectInit : SocketAddr → String → Except String Unit)
    (handshake : Except String Unit) (sessionDriver : Except String Unit)
    (openBi : Except String (τ × σ)) :
    Except String (σ × τ) × List LogEvent :=
  match bindRes with
  | .error e => (.error e, [])
  | .ok _ =>
      let endpointEvents : List LogEvent :=
        match endpointDriver with
        | .error e => [⟨.error, "Endpoint error " ++ e⟩]
        | .ok _ => []
      match connectInit address (q.server_name hostname) with
      | .error e => (.error e, endpointEvents)
      | .ok _ =>
          match handshake with
          | .error e => (.error e, endpointEvents)
          | .ok _ =>
              let sessionEvents : List LogEvent :=
                match sessionDriver with
                | .error e => [⟨.error, "Connection error " ++ e⟩]
                | .ok _ => []
              match openBi with
              | .error e => (.error e, endpointEvents ++ sessionEvents)
              | .ok (send, recv) =>
                  (.ok (recv, send),
                    endpointEvents ++ sessionEvents ++
                      [⟨.info, "Connection established"⟩])

/-- Models Options::get_address (main.rs lines 90-117).  External effects are
passed as outcome parameters: `confRes` for AsyncResolver::from_system_conf
and `lookupRes` for resolver.lookup_ip on the hostname.  The first candidate
of the response sequence is combined with the configured port; an empty
response sequence fails with "No DNS record found" (the bail! at line 107). -/
def Options.get_address (o : Options) (confRes : Except String Unit)
    (lookupRes : Except String (List IpAddr)) : Except String SocketAddr :=
  match confRes with
  | .error e => .error e
  | .ok _ =>
      match lookupRes with
      | .error e => .error e
      | .ok responses =>
          match responses.head? with
          | some ip => .ok ⟨ip, o.port⟩
          | none => .error "No DNS record found"

/-- The pipeline stages the orchestrator actually starts, in order. -/
inductive Stage where
  | resolving
  | connecting
  | relaying
  deriving DecidableEq

/-- The outcomes of all external effects a full run can touch, bundled so the
orchestrator can be stated as one function. -/
structure Env (σ τ : Type) where
  dnsConf : Except String Unit
  lookup : Except String (List IpAddr)
  bindRes : Except String Unit
  endpointDriver : Except String Unit
  connectInit : SocketAddr → String → Except String Unit
  handshake : Except String Unit
  sessionDriver : Except String Unit
  openBi : Except String (τ × σ)
  stdinSrc : ByteSource
  sendSink : ByteSink
  recvSrc : ByteSource
  stdoutSink : ByteSink
  tSend : Nat
  tRecv : Nat

/-- The value the connection stage of main resolves with: the closure at
main.rs lines 145-151 destructures the single Protocol variant and calls
QuicOptions::connect with the resolved address and the original hostname. -/
def connect_stage {σ τ : Type} (o : Options) (env : Env σ τ)
    (addr : SocketAddr) : Except String (σ × τ) :=
  match o.protocol with
  | .quic q =>
      (q.connect addr o.hostname env.bindRes env.endpointDriver
        env.connectInit env.handshake env.sessionDriver env.openBi).1

/-- The value the relay stage of main resolves with (main.rs line 153). -/
def relay_stage {σ τ : Type} (env : Env σ τ) : Except String RelaySummary :=
  (run_stream_connection env.stdinSrc env.sendSink env.recvSrc env.stdoutSink
    env.tSend env.tRecv).result

/-- Models fn main (main.rs lines 139-156): get_address, then and_then into
QuicOptions::connect with the resolved address and the original hostname,
then and_then into run_stream_connection, run to completion by block_on.
Alongside the final result we record which stages were started, so that
short-circuiting (a failed stage prevents every later stage from starting) is
an explicit part of the model. -/
def main_run {σ τ : Type} (o : Options) (env : Env σ τ) :
    Except String RelaySummary × List Stage :=
  match o.get_address env.dnsConf env.lookup with
  | .error e => (.error e, [.resolving])
  | .ok addr =>
      match connect_stage o env addr with
      | .error e => (.error e, [.resolving, .connecting])
      | .ok _streams => (relay_stage env, [.resolving, .connecting, .relaying])

/-- When the sink never fails, the copy loop succeeds with the accumulated
count plus the total length of the remaining chunks, provided the source ends
cleanly. -/
theorem copyChunks_clean (sink : ByteSink) (hw : sink.wErr = none) :
    ∀ (chunks : List (List Nat)) (acc : Nat),
      copyChunks none sink chunks acc = .ok (acc + (chunks.map List.length).sum) := by
  intro chunks
  induction chunks with
  | nil => intro acc; simp [copyChunks]
  | cons c rest ih =>
      intro acc
      simp [copyChunks, hw, ih (acc + c.length), Nat.add_assoc]

/-- A copy direction whose source ends cleanly and whose sink never fails
resolves with the source's total byte count. -/
theorem ioCopy_clean (src : ByteSource) (sink : ByteSink)
    (hr : src.terminal = none) (hw : sink.wErr = none) :
    ioCopy src sink = .ok src.total := by
  simp [ioCopy, hr, copyChunks_clean sink hw src.chunks 0, ByteSource.total]

/-- C1: For every non-empty ordered DNS result sequence, Options::get_address
returns the first IP of the sequence combined with the configured port,
independently of the remaining candidates; for the empty sequence it fails
with "No DNS record found". -/
theorem get_address_first_or_noDnsRecord (o : Options) (ip : IpAddr)
    (rest : List IpAddr) :
    o.get_address (.ok ()) (.ok (ip :: rest)) = .ok ⟨ip, o.port⟩ ∧
    o.get_address (.ok ()) (.ok []) = .error "No DNS record found" :=
  ⟨rfl, rfl⟩

/-- C2: On a fully successful run (both sources end cleanly, both sinks accept
every write), the relay's reported summary is exactly the total number of
bytes read from local standard input and the total number of bytes received
from the remote. -/
theorem relay_summary_counts (stdinSrc : ByteSource) (sendSink : ByteSink)
    (recvSrc : ByteSource) (stdoutSink : ByteSink) (tSend tRecv : Nat)
    (h1 : stdinSrc.terminal = none) (h2 : sendSink.wErr = none)
    (h3 : recvSrc.terminal = none) (h4 : stdoutSink.wErr = none) :
    (run_stream_connection stdinSrc sendSink recvSrc stdoutSink tSend tRecv).result
      = .ok ⟨stdinSrc.total, recvSrc.total⟩ := by
  simp [run_stream_connection, TFuture.join, ioCopy_clean stdinSrc sendSink h1 h2,
    ioCopy_clean recvSrc stdoutSink h3 h4, Except.map]

/-- C2 witness: 100 bytes of local input and 250 bytes from the remote yield
the summary (bytesTransmitted 100, bytesReceived 250). -/
theorem relay_summary_counts_witness :
    (run_stream_connection ⟨[List.replicate 100 7], none⟩ ⟨0, none⟩
        ⟨[List.replicate 250 9], none⟩ ⟨0, none⟩ 1 2).result = .ok ⟨100, 250⟩ := by
  have h := relay_summary_counts ⟨[List.replicate 100 7], none⟩ ⟨0, none⟩
    ⟨[List.replicate 250 9], none⟩ ⟨0, none⟩ 1 2 rfl rfl rfl rfl
  have hs : ByteSource.total ⟨[List.replicate 100 7], none⟩ = 100 := by
    simp only [ByteSource.total, List.map_cons, List.map_nil,
      List.length_replicate, List.sum_cons, List.sum_nil, Nat.add_zero]
  have hr : ByteSource.total ⟨[List.replicate 250 9], none⟩ = 250 := by
    simp only [ByteSource.total, List.map_cons, List.map_nil,
      List.length_replicate, List.sum_cons, List.sum_nil, Nat.add_zero]
  rw [hs, hr] at h
  exact h

/-- C3 counterexample: with hostname "example.com" and the override supplied
as the empty string, the claim predicts the effective identity "example.com"
(override supplied but empty, so "otherwise" applies), but the code uses the
empty override verbatim. -/
theorem identity_empty_override_counterexample :
    QuicOptions.server_name ⟨some ""⟩ "example.com" = "" ∧
    QuicOptions.server_name ⟨some ""⟩ "example.com" ≠ "example.com" := by
  constructor
  · rfl
  · decide

/-- C3 amended: the effective authentication identity equals the override
whenever one is supplied, even the empty string, and equals the original
hostname exactly when no override is supplied. -/
theorem identity_override_verbatim (hostname ov : String) :
    QuicOptions.server_name ⟨some ov⟩ hostname = ov ∧
    QuicOptions.server_name ⟨none⟩ hostname = hostname :=
  ⟨rfl, rfl⟩

/-- C4: whenever the session's open_bi yields the ordered pair
(transmit, receive), QuicOptions::connect resolves with the inverted pair
(receive, transmit): its first component is the session's read-half and its
second the write-half. -/
theorem connect_inverts_stream_pair {σ τ : Type} (q : QuicOptions)
    (address : SocketAddr) (hostname : String)
    (endpointDriver sessionDriver : Except String Unit)
    (connectInit : SocketAddr → String → Except String Unit)
    (sendHalf : τ) (recvHalf : σ)
    (hci : connectInit address (q.server_name hostname) = .ok ()) :
    (q.connect address hostname (.ok ()) endpointDriver connectInit (.ok ())
        sessionDriver (.ok (sendHalf, recvHalf))).1 = .ok (recvHalf, sendHalf) := by
  simp [QuicOptions.connect, hci]

/-- C4 witness: with the two halves distinguished by type and value, the
returned pair is (receive, transmit). -/
theorem connect_inverts_stream_pair_witness :
    ((QuicOptions.mk (some "srv")).connect ⟨"192.0.2.1", 4433⟩ "example.com"
        (.ok ()) (.ok ()) (fun _ _ => .ok ()) (.ok ()) (.ok ())
        (.ok ((true, (5 : Nat)) : Bool × Nat))).1 = .ok ((5 : Nat), true) :=
  connect_inverts_stream_pair (QuicOptions.mk (some "srv")) ⟨"192.0.2.1", 4433⟩
    "example.com" (.ok ()) (.ok ()) (fun _ _ => .ok ()) true (5 : Nat) rfl

/-- C5: the orchestrator runs resolution, connection and relay in strict
sequence and short-circuits on the first failure of any stage: a resolution
failure surfaces alone with only the resolving stage started, a connection
failure (bind, connect, handshake or stream opening) surfaces alone with the
relay never started, and only when both earlier stages succeed does the run
reduce to the relay's single outcome with all three stages started; in
particular an empty resolver answer fails the run with "No DNS record found"
and no connection attempt is made. -/
theorem orchestrator_short_circuit {σ τ : Type} (o : Options) (env : Env σ τ) :
    (∀ e, o.get_address env.dnsConf env.lookup = .error e →
        main_run o env = (.error e, [Stage.resolving])) ∧
    (∀ addr e, o.get_address env.dnsConf env.lookup = .ok addr →
        connect_stage o env addr = .error e →
        main_run o env = (.error e, [Stage.resolving, Stage.connecting])) ∧
    (∀ addr s, o.get_address env.dnsConf env.lookup = .ok addr →
        connect_stage o env addr = .ok s →
        main_run o env =
          (relay_stage env, [Stage.resolving, Stage.connecting, Stage.relaying])) ∧
    (env.dnsConf = .ok () → env.lookup = .ok [] →
        main_run o env = (.error "No DNS record found", [Stage.resolving]) ∧
        Stage.connecting ∉ (main_run o env).2 ∧
        Stage.relaying ∉ (main_run o env).2) := by
  refine ⟨?_, ?_, ?_, ?_⟩
  · intro e h
    simp [main_run, h]
  · intro addr e h hc
    simp [main_run, h, hc]
  · intro addr s h hc
    simp [main_run, h, hc]
  · intro h1 h2
    have h : o.get_address env.dnsConf env.lookup = .error "No DNS record found" := by
      simp [Options.get_address, h1, h2]
    refine ⟨?_, ?_, ?_⟩ <;> simp [main_run, h]

/-- C5 witness: a concrete run with an empty DNS answer fails with
"No DNS record found" having started only the resolving stage, and a concrete
run whose endpoint bind fails surfaces exactly that failure with the relay
never started. -/
theorem orchestrator_short_circuit_witness :
    main_run (⟨"example.com", 4433, .quic ⟨none⟩⟩ : Options)
      (⟨.ok (), .ok [], .ok (), .ok (), fun _ _ => .ok (), .ok (), .ok (),
        .ok (true, 0), ⟨[], none⟩, ⟨0, none⟩, ⟨[], none⟩, ⟨0, none⟩, 0, 0⟩ :
        Env Nat Bool)
      = (.error "No DNS record found", [Stage.resolving]) ∧
    main_run (⟨"example.com", 4433, .quic ⟨none⟩⟩ : Options)
      (⟨.ok (), .ok ["192.0.2.1"], .error "bind failed", .ok (),
        fun _ _ => .ok (), .ok (), .ok (), .ok (true, 0), ⟨[], none⟩,
        ⟨0, none⟩, ⟨[], none⟩, ⟨0, none⟩, 0, 0⟩ : Env Nat Bool)
      = (.error "bind failed", [Stage.resolving, Stage.connecting]) :=
  ⟨((orchestrator_short_circuit _ _).2.2.2 rfl rfl).1,
    (orchestrator_short_circuit _ _).2.1 ⟨"192.0.2.1", 4433⟩ "bind failed"
      rfl rfl⟩

/-- C6: when the stdin-to-transmit direction finishes immediately on empty
input and the receive-to-stdout direction finishes at time tRecv having
carried its source's bytes, the relay resolves exactly at tRecv (join
semantics: not before the second direction finishes) and reports
bytesReceived equal to the number of bytes the remote sent. -/
theorem relay_join_semantics (sendSink : ByteSink) (recvSrc : ByteSource)
    (stdoutSink : ByteSink) (tRecv : Nat)
    (h3 : recvSrc.terminal = none) (h4 : stdoutSink.wErr = none) :
    (run_stream_connection ⟨[], none⟩ sendSink recvSrc stdoutSink 0 tRecv).time
      = tRecv ∧
    (run_stream_connection ⟨[], none⟩ sendSink recvSrc stdoutSink 0 tRecv).result
      = .ok ⟨0, recvSrc.total⟩ := by
  have hA : ioCopy ⟨[], none⟩ sendSink = .ok 0 := rfl
  have hB := ioCopy_clean recvSrc stdoutSink h3 h4
  constructor <;>
    simp [run_stream_connection, TFuture.join, hA, hB, Except.map, Nat.zero_max]

/-- C6 witness: empty local input finishing at time 0 and 250 remote bytes
finishing at time 5 complete at time 5 with bytesReceived 250. -/
theorem relay_join_semantics_witness :
    (run_stream_connection ⟨[], none⟩ ⟨0, none⟩ ⟨[List.replicate 250 1], none⟩
        ⟨0, none⟩ 0 5).time = 5 ∧
    (run_stream_connection ⟨[], none⟩ ⟨0, none⟩ ⟨[List.replicate 250 1], none⟩
        ⟨0, none⟩ 0 5).result = .ok ⟨0, 250⟩ := by
  have h := relay_join_semantics ⟨0, none⟩ ⟨[List.replicate 250 1], none⟩
    ⟨0, none⟩ 5 rfl rfl
  have hr : ByteSource.total ⟨[List.replicate 250 1], none⟩ = 250 := by
    simp only [ByteSource.total, List.map_cons, List.map_nil,
      List.length_replicate, List.sum_cons, List.sum_nil, Nat.add_zero]
  exact ⟨h.1, by rw [hr] at h; exact h.2⟩

/-- C7: if either copy direction fails with an I/O error, the relay as a
whole fails, and the surfaced error is exactly one of the directions' I/O
errors. -/
theorem relay_error_propagation (stdinSrc : ByteSource) (sendSink : ByteSink)
    (recvSrc : ByteSource) (stdoutSink : ByteSink) (tSend tRecv : Nat)
    (h : (∃ e, ioCopy stdinSrc sendSink = .error e) ∨
         (∃ e, ioCopy recvSrc stdoutSink = .error e)) :
    ∃ e, (run_stream_connection stdinSrc sendSink recvSrc stdoutSink tSend
            tRecv).result = .error e ∧
      (ioCopy stdinSrc sendSink = .error e ∨
        ioCopy recvSrc stdoutSink = .error e) := by
  cases hA : ioCopy stdinSrc sendSink with
  | error eA =>
      cases hB : ioCopy recvSrc stdoutSink with
      | error eB =>
          by_cases ht : tSend ≤ tRecv
          · exact ⟨eA, by
              simp [run_stream_connection, TFuture.join, hA, hB, ht, Except.map],
              Or.inl rfl⟩
          · exact ⟨eB, by
              simp [run_stream_connection, TFuture.join, hA, hB, ht, Except.map],
              Or.inr rfl⟩
      | ok nB =>
          exact ⟨eA, by
            simp [run_stream_connection, TFuture.join, hA, hB, Except.map],
            Or.inl rfl⟩
  | ok nA =>
      cases hB : ioCopy recvSrc stdoutSink with
      | error eB =>
          exact ⟨eB, by
            simp [run_stream_connection, TFuture.join, hA, hB, Except.map],
            Or.inr rfl⟩
      | ok nB =>
          rcases h with ⟨e, he⟩ | ⟨e, he⟩
          · rw [hA] at he; exact absurd he (by simp)
          · rw [hB] at he; exact absurd he (by simp)

/-- C7 witness: a failing stdin read makes the whole relay fail with that
error. -/
theorem relay_error_propagation_witness :
    ∃ e, (run_stream_connection ⟨[], some "boom"⟩ ⟨0, none⟩ ⟨[], none⟩
            ⟨0, none⟩ 0 0).result = .error e ∧
      (ioCopy ⟨[], some "boom"⟩ ⟨0, none⟩ = .error e ∨
        ioCopy ⟨[], none⟩ ⟨0, none⟩ = .error e) :=
  relay_error_propagation ⟨[], some "boom"⟩ ⟨0, none⟩ ⟨[], none⟩ ⟨0, none⟩ 0 0
    (Or.inl ⟨"boom", rfl⟩)

/-- C8 counterexample: a concrete run whose endpoint driving task fails emits
that failure at error level (the error! macro), not at debug level, so the
claim that such failures are emitted as debug-level events is false. -/
theorem driver_failure_level_counterexample :
    ((QuicOptions.mk none).connect ⟨"192.0.2.1", 4433⟩ "example.com" (.ok ())
        (.error "boom") (fun _ _ => .ok ()) (.ok ()) (.ok ())
        (.ok ((true, (0 : Nat)) : Bool × Nat))).2
      = [⟨.error, "Endpoint error boom"⟩, ⟨.info, "Connection established"⟩] ∧
    LogLevel.error ≠ LogLevel.debug := by
  constructor
  · decide
  · decide

/-- C8 amended: failures of the background driving tasks are emitted as
error-level diagnostic events and are never propagated: the value the connect
future resolves with is the same for any driving-task outcomes, an endpoint
driving-task failure appears in the emitted events at error level, and a
session driving-task failure (once the session exists, i.e. bind, connect
initiation and handshake succeeded) appears in the emitted events at error
level. -/
theorem driver_failure_logged_not_propagated {σ τ : Type} (q : QuicOptions)
    (address : SocketAddr) (hostname : String) (bindRes : Except String Unit)
    (connectInit : SocketAddr → String → Except String Unit)
    (handshake : Except String Unit) (openBi : Except String (τ × σ))
    (d1 d2 s1 s2 : Except String Unit) :
    (q.connect address hostname bindRes d1 connectInit handshake s1 openBi).1
      = (q.connect address hostname bindRes d2 connectInit handshake s2 openBi).1 ∧
    (∀ e, d1 = .error e → bindRes = .ok () →
      (⟨.error, "Endpoint error " ++ e⟩ : LogEvent)
        ∈ (q.connect address hostname bindRes d1 connectInit handshake s1
            openBi).2) ∧
    (∀ e, s1 = .error e → bindRes = .ok () →
      connectInit address (q.server_name hostname) = .ok () →
      handshake = .ok () →
      (⟨.error, "Connection error " ++ e⟩ : LogEvent)
        ∈ (q.connect address hostname bindRes d1 connectInit handshake s1
            openBi).2) := by
  refine ⟨?_, ?_, ?_⟩
  · cases bindRes with
    | error e => rfl
    | ok u =>
        cases hc : connectInit address (q.server_name hostname) with
        | error e => simp [QuicOptions.connect, hc]
        | ok u2 =>
            cases handshake with
            | error e => simp [QuicOptions.connect, hc]
            | ok u3 =>
                cases openBi with
                | error e => simp [QuicOptions.connect, hc]
                | ok p =>
                    obtain ⟨sh, rh⟩ := p
                    simp [QuicOptions.connect, hc]
  · intro e hd hb
    subst hd
    subst hb
    cases hc : connectInit address (q.server_name hostname) with
    | error e2 => simp [QuicOptions.connect, hc]
    | ok u2 =>
        cases handshake with
        | error e2 => simp [QuicOptions.connect, hc]
        | ok u3 =>
            cases openBi with
            | error e2 => cases s1 <;> simp [QuicOptions.connect, hc]
            | ok p =>
                obtain ⟨sh, rh⟩ := p
                cases s1 <;> simp [QuicOptions.connect, hc]
  · intro e hs hb hc hh
    subst hs
    subst hb
    subst hh
    cases d1 with
    | error e1 =>
        cases openBi with
        | error e2 => simp [QuicOptions.connect, hc]
        | ok p =>
            obtain ⟨sh, rh⟩ := p
            simp [QuicOptions.connect, hc]
    | ok u =>
        cases openBi with
        | error e2 => simp [QuicOptions.connect, hc]
        | ok p =>
            obtain ⟨sh, rh⟩ := p
            simp [QuicOptions.connect, hc]

/-- C8 amended witness: a concrete endpoint driving-task failure leaves the
resolved value unchanged and appears in the events at error level, and a
concrete session driving-task failure appears in the events at error
level. -/
theorem driver_failure_logged_not_propagated_witness :
    ((QuicOptions.mk none).connect ⟨"192.0.2.1", 4433⟩ "example.com" (.ok ())
        (.error "boom") (fun _ _ => .ok ()) (.ok ()) (.ok ())
        (.ok ((true, (0 : Nat)) : Bool × Nat))).1
      = ((QuicOptions.mk none).connect ⟨"192.0.2.1", 4433⟩ "example.com"
        (.ok ()) (.ok ()) (fun _ _ => .ok ()) (.ok ()) (.error "late")
        (.ok ((true, (0 : Nat)) : Bool × Nat))).1 ∧
    (⟨.error, "Endpoint error boom"⟩ : LogEvent)
      ∈ ((QuicOptions.mk none).connect ⟨"192.0.2.1", 4433⟩ "example.com"
        (.ok ()) (.error "boom") (fun _ _ => .ok ()) (.ok ()) (.ok ())
        (.ok ((true, (0 : Nat)) : Bool × Nat))).2 ∧
    (⟨.error, "Connection error late"⟩ : LogEvent)
      ∈ ((QuicOptions.mk none).connect ⟨"192.0.2.1", 4433⟩ "example.com"
        (.ok ()) (.ok ()) (fun _ _ => .ok ()) (.ok ()) (.error "late")
        (.ok ((true, (0 : Nat)) : Bool × Nat))).2 := by
  have h := driver_failure_logged_not_propagated (QuicOptions.mk none)
    ⟨"192.0.2.1", 4433⟩ "example.com" (.ok ()) (fun _ _ => .ok ()) (.ok ())
    (.ok ((true, (0 : Nat)) : Bool × Nat)) (.error "boom") (.ok ()) (.ok ())
    (.error "late")
  have h2 := driver_failure_logged_not_propagated (QuicOptions.mk none)
    ⟨"192.0.2.1", 4433⟩ "example.com" (.ok ()) (fun _ _ => .ok ()) (.ok ())
    (.ok ((true, (0 : Nat)) : Bool × Nat)) (.ok ()) (.error "boom")
    (.error "late") (.ok ())
  exact ⟨h.1, h.2.1 "boom" rfl rfl, h2.2.2 "late" rfl rfl rfl rfl⟩

/-- C9: when the identity override is supplied as the empty string, the
connector uses the empty string verbatim as the effective authentication
identity; the fallback to the hostname happens only when the override is
absent. -/
theorem empty_override_used_verbatim (hostname : String) :
    QuicOptions.server_name ⟨some ""⟩ hostname = "" ∧
    QuicOptions.server_name ⟨none⟩ hostname = hostname :=
  ⟨rfl, rfl⟩

/-- C10: if either copy direction fails while the other is still in progress
(it would finish only at a strictly later time), the relay resolves already
at the failing direction's time with that direction's error, so no summary
and no byte counts are produced: the stdin-to-transmit direction failing at
tSend < tRecv resolves the relay at tSend with its error, and the
receive-to-stdout direction failing at tRecv < tSend resolves the relay at
tRecv with its error. -/
theorem relay_error_no_join_wait (stdinSrc : ByteSource) (sendSink : ByteSink)
    (recvSrc : ByteSource) (stdoutSink : ByteSink) (tSend tRecv : Nat)
    (e : String) :
    (ioCopy stdinSrc sendSink = .error e → tSend < tRecv →
      (run_stream_connection stdinSrc sendSink recvSrc stdoutSink tSend
          tRecv).time = tSend ∧
      (run_stream_connection stdinSrc sendSink recvSrc stdoutSink tSend
          tRecv).result = .error e) ∧
    (ioCopy recvSrc stdoutSink = .error e → tRecv < tSend →
      (run_stream_connection stdinSrc sendSink recvSrc stdoutSink tSend
          tRecv).time = tRecv ∧
      (run_stream_connection stdinSrc sendSink recvSrc stdoutSink tSend
          tRecv).result = .error e) := by
  constructor
  · intro hfail hprog
    have ht : tSend ≤ tRecv := Nat.le_of_lt hprog
    cases hB : ioCopy recvSrc stdoutSink with
    | error eB =>
        constructor <;>
          simp [run_stream_connection, TFuture.join, hfail, hB, ht, Except.map]
    | ok nB =>
        constructor <;>
          simp [run_stream_connection, TFuture.join, hfail, hB, Except.map]
  · intro hfail hprog
    have ht : ¬ tSend ≤ tRecv := Nat.not_le.mpr hprog
    cases hA : ioCopy stdinSrc sendSink with
    | error eA =>
        constructor <;>
          simp [run_stream_connection, TFuture.join, hA, hfail, ht, Except.map]
    | ok nA =>
        constructor <;>
          simp [run_stream_connection, TFuture.join, hA, hfail, Except.map]

/-- C10 witness: a local-side read error at time 1 with the other direction
finishing at time 2 resolves the relay at time 1 with that error, and a
remote-side read error at time 1 with the other direction finishing at time 2
resolves the relay at time 1 with that error. -/
theorem relay_error_no_join_wait_witness :
    ((run_stream_connection ⟨[], some "local io"⟩ ⟨0, none⟩ ⟨[], none⟩
        ⟨0, none⟩ 1 2).time = 1 ∧
      (run_stream_connection ⟨[], some "local io"⟩ ⟨0, none⟩ ⟨[], none⟩
        ⟨0, none⟩ 1 2).result = .error "local io") ∧
    ((run_stream_connection ⟨[], none⟩ ⟨0, none⟩ ⟨[], some "peer reset"⟩
        ⟨0, none⟩ 2 1).time = 1 ∧
      (run_stream_connection ⟨[], none⟩ ⟨0, none⟩ ⟨[], some "peer reset"⟩
        ⟨0, none⟩ 2 1).result = .error "peer reset") :=
  ⟨(relay_error_no_join_wait ⟨[], some "local io"⟩ ⟨0, none⟩ ⟨[], none⟩
      ⟨0, none⟩ 1 2 "local io").1 rfl (by decide),
    (relay_error_no_join_wait ⟨[], none⟩ ⟨0, none⟩ ⟨[], some "peer reset"⟩
      ⟨0, none⟩ 2 1 "peer reset").2 rfl (by decide)⟩

end Netcat
